import Mathlib

/-!
figlet4go: output parsers (`parser.go`) and the SVG document wrapper (`svg_test.go`)

A shallow embedding of the parser registry of figlet4go and of the lookup
`GetParser`, followed by the properties proved about them.

Modelling conventions.

* A Go `string` is a Lean `String`; the algorithms on strings work on the
  list of characters `String.data`.
* A Go `map[string]string` value is an `Option (List (String × String))`:
  `none` is the nil map, `some es` is a map whose entries are `es`, listed in
  the order of the map literal.
* The Go result `(*Parser, error)` is a pair of options: `none` on the left is
  the nil pointer, `none` on the right is the nil error, and an error is
  represented by its message.
-/

namespace Figlet4go

/-! ## Definitions -/

/-- Parser stores some output specific stuff (`type Parser struct` in `parser.go`);
the six fields are those of the Go struct, in declaration order. -/
structure Parser where
  Name : String
  Prefix : String
  Suffix : String
  LinePrefix : String
  LineSuffix : String
  Replaces : Option (List (String × String))
  deriving DecidableEq

/-- The package variable `parsers` of `parser.go`: the positional struct literals
of the source, keyed by name. -/
def parsers : List (String × Parser) :=
  [ ("terminal", ⟨"terminal", "", "", "", "\n", none⟩),
    ("html", ⟨"html", "<code>", "</code>", "", "<br>", some [(" ", "&nbsp;")]⟩),
    ("svg", ⟨"svg", "", "", "<tspan x=\"10\" dy=\"1em\">", "</tspan>", some [(" ", "&#160;")]⟩) ]

/-- GetParser returns a parser by its key: the map lookup `parsers[key]`, an error
carrying the key when the key is absent, the found struct otherwise. -/
def GetParser (key : String) : Option Parser × Option String :=
  match parsers.lookup key with
  | none => (none, some ("Invalid parser key: " ++ key))
  | some parser => (some parser, none)

/-- The three keys of the map literal `parsers`. -/
def registered (key : String) : Prop :=
  key = "terminal" ∨ key = "html" ∨ key = "svg"

instance (key : String) : Decidable (registered key) := by
  unfold registered; infer_instance

/-! ### Replacements -/

/-- The scan of Go `strings.ReplaceAll(s, old, new)` for a non-empty `old`, on
characters: the text is read left to right; where `old` starts, `new` is written and
the remaining `old.length - 1` characters of the match are skipped (`skip` counts the
characters still to drop), otherwise the character is kept. Matches do not overlap. -/
def replaceScan (old new : List Char) : List Char → Nat → List Char
  | [], _ => []
  | _ :: rest, skip + 1 => replaceScan old new rest skip
  | c :: rest, 0 =>
    if old.isPrefixOf (c :: rest) then new ++ replaceScan old new rest (old.length - 1)
    else c :: replaceScan old new rest 0

/-- Go `strings.ReplaceAll(s, old, new)` (standard library): every non-overlapping
occurrence of `old` in `s` becomes `new`; an empty `old` matches at the beginning of
the string and after each character. -/
def ReplaceAll (s old new : String) : String :=
  if old.data = [] then ⟨new.data ++ s.data.flatMap fun c => c :: new.data⟩
  else ⟨replaceScan old.data new.data s.data 0⟩

/-- Modelled from the spec: `handleReplaces(str, parser)` is called by
`parser_test.go` and is not among the source files. It applies the descriptor's
replacement map to the string: for each entry, every occurrence of the key is
replaced by its value; a nil map leaves the string as it is. -/
def handleReplaces (str : String) (p : Parser) : String :=
  match p.Replaces with
  | none => str
  | some entries => entries.foldl (fun acc kv => ReplaceAll acc kv.1 kv.2) str

/-- The string `s` with every space replaced by the text `entity`, character by
character (the wording of the specification for the html and svg escapes). -/
def spacesReplaced (entity s : String) : String :=
  ⟨s.data.flatMap fun c => if c = ' ' then entity.data else [c]⟩

/-! ### Memory model: what a caller can do with a retrieved descriptor

`GetParser` returns `&parser`, the address of a fresh copy of the struct found in
the map. The five string fields of the copy are values of its own; the Replaces field
is a Go map, that is a reference to a map object, and copying the struct copies the
reference. The definitions below make the references explicit. -/

/-- A Parser struct as it lies in memory: Replaces holds `none` for the nil map or
the address of a map object. -/
structure ParserCell where
  Name : String
  Prefix : String
  Suffix : String
  LinePrefix : String
  LineSuffix : String
  Replaces : Option Nat
  deriving DecidableEq

/-- The memory of the package: the map objects, the Parser variables handed out by
`GetParser`, and the package variable `parsers`. Addresses are list positions. -/
structure Mem where
  maps : List (List (String × String))
  vars : List ParserCell
  parsers : List (String × ParserCell)
  deriving DecidableEq

/-- `GetParser` on memory: `parser, ok := parsers[key]` copies the struct found into
a new variable `parser`, and `&parser`, the address of that variable, is returned. -/
def Mem.GetParser (m : Mem) (key : String) : Mem × Option Nat × Option String :=
  match m.parsers.lookup key with
  | none => (m, none, some ("Invalid parser key: " ++ key))
  | some parser => ({ m with vars := m.vars ++ [parser] }, some m.vars.length, none)

/-- Go `strings.HasPrefix(s, pre)`. -/
def HasPrefix (s pre : String) : Prop := pre.data <+: s.data

/-- Go `strings.HasSuffix(s, suf)`. -/
def HasSuffix (s suf : String) : Prop := suf.data <:+ s.data

/-- Go `strings.Contains(s, sub)`. -/
def Contains (s sub : String) : Prop := sub.data <:+: s.data

instance (s pre : String) : Decidable (HasPrefix s pre) := by
  unfold HasPrefix; infer_instance

instance (s suf : String) : Decidable (HasSuffix s suf) := by
  unfold HasSuffix; infer_instance

instance (s sub : String) : Decidable (Contains s sub) := by
  unfold Contains; infer_instance

/-- Modelled from the spec: one more character of colour `c` in front of the runs of
the rest of the line; it joins the first run when that run has the same colour
(runs are maximal), and starts a new run otherwise. -/
def addToRuns {κ : Type} [DecidableEq κ] (c : κ) (ch : Char) :
    List (κ × List Char) → List (κ × List Char)
  | [] => [(c, [ch])]
  | r :: rest => if r.1 = c then (c, ch :: r.2) :: rest else (c, [ch]) :: r :: rest

/-- Modelled from the spec: the partition of a line into maximal runs of equal
colour (section 4.3, step 2); the character at cursor position `cursor` has the
colour `colors[cursor mod len(colors)]`, and the cursor advances once per character. -/
def colorRuns {κ : Type} [DecidableEq κ] (colors : List κ) :
    Nat → List Char → List (κ × List Char)
  | _, [] => []
  | cursor, ch :: rest =>
    match colors[cursor % colors.length]? with
    | none => colorRuns colors (cursor + 1) rest
    | some c => addToRuns c ch (colorRuns colors (cursor + 1) rest)

/-- Modelled from the spec: `encodeLine(line, descriptor, colorSequence,
colorCursor)` of section 4.3, which is not among the source files. A line equal to
the descriptor's own open and close markers is left untouched; without colours the
line is escaped; with colours every run is escaped and wrapped by `span`; the result
is wrapped in LinePrefix and LineSuffix. Returns the encoded line and the cursor. -/
def encodeLine {κ : Type} [DecidableEq κ] (span : Parser → κ → String → String)
    (p : Parser) (colors : List κ) (cursor : Nat) (line : String) : String × Nat :=
  if line = p.LinePrefix ++ p.LineSuffix then (line, cursor)
  else if colors.isEmpty then (p.LinePrefix ++ handleReplaces line p ++ p.LineSuffix, cursor)
  else
    (p.LinePrefix ++
        String.join ((colorRuns colors cursor line.data).map fun r =>
          span p r.1 (handleReplaces ⟨r.2⟩ p)) ++
        p.LineSuffix,
      cursor + line.data.length)

/-- Modelled from the spec: the lines of a render call encoded one after the other,
the colour cursor threaded from each line to the next (section 4.4). -/
def encodeLines {κ : Type} [DecidableEq κ] (span : Parser → κ → String → String)
    (p : Parser) (colors : List κ) : Nat → List String → List String
  | _, [] => []
  | cursor, line :: rest =>
    (encodeLine span p colors cursor line).1 ::
      encodeLines span p colors (encodeLine span p colors cursor line).2 rest

/-- The strings of a list joined with a separator between consecutive ones. -/
def joinWith (sep : String) : List String → String
  | [] => ""
  | [a] => a
  | a :: b :: rest => a ++ sep ++ joinWith sep (b :: rest)

/-- Modelled from the spec: `render(lines, descriptor, colorSequence)` of section
4.4 (the `RenderOpts` of the tests, given the glyph lines), which is not among the
source files. A nil descriptor is an error (`none`); otherwise the encoded lines,
the cursor starting at zero, are joined with `lineJoin` and wrapped in Prefix and
Suffix. -/
def render {κ : Type} [DecidableEq κ] (span : Parser → κ → String → String)
    (lineJoin : String) (descriptor : Option Parser) (lines : List String)
    (colors : List κ) : Option String :=
  match descriptor with
  | none => none
  | some p => some (p.Prefix ++ joinWith lineJoin (encodeLines span p colors 0 lines) ++ p.Suffix)

/-! ### `WrapSVG` (`svg_test.go`)

A Go `int` is modelled as an `Int` in the range of a 64-bit two's complement word
(the width of `int` on 64-bit platforms); an arithmetic result is brought back into
that range by `wrapInt`. -/

/-- SVGOptions for wrapping rendered text in a complete SVG document. -/
structure SVGOptions where
  Width : Int
  Height : Int
  FontFamily : String
  FontSize : Int
  deriving DecidableEq

/-- The value of type `int` that Go arithmetic yields for the exact result `z`:
`z` reduced modulo `2^64` into the range `-2^63 ≤ _ < 2^63`. -/
def wrapInt (z : Int) : Int :=
  (z + 9223372036854775808) % 18446744073709551616 - 9223372036854775808

/-- The values an `int` can hold. -/
def inIntRange (z : Int) : Prop :=
  -9223372036854775808 ≤ z ∧ z < 9223372036854775808

instance (z : Int) : Decidable (inIntRange z) := by
  unfold inIntRange; infer_instance

/-- The verb `%d` of `fmt.Sprintf` on an `int`: decimal digits, with a leading minus
sign for a negative number. -/
def formatInt : Int → String
  | Int.ofNat n => Nat.repr n
  | Int.negSucc n => "-" ++ Nat.repr (n + 1)

/-- The pieces of a text between its newline characters. -/
def splitNewline : List Char → List (List Char)
  | [] => [[]]
  | c :: rest =>
    if c = '\n' then [] :: splitNewline rest
    else
      match splitNewline rest with
      | [] => [[c]]
      | first :: others => (c :: first) :: others

/-- Go `strings.Split(s, "\n")`. -/
def Split (s : String) : List String :=
  (splitNewline s.data).map String.mk

/-- Go `strings.TrimPrefix(s, pre)`. -/
def TrimPrefix (s pre : String) : String :=
  if pre.data.isPrefixOf s.data then ⟨s.data.drop pre.data.length⟩ else s

/-- Go `strings.TrimSuffix(s, suf)`. -/
def TrimSuffix (s suf : String) : String :=
  if suf.data.isSuffixOf s.data then ⟨s.data.take (s.data.length - suf.data.length)⟩ else s

/-- The three statements of the loop of `WrapSVG` that remove the `<text>` and
`</text>` wrappers and the `<br/>` markers of a line. -/
def stripLine (line : String) : String :=
  ReplaceAll (TrimSuffix (TrimPrefix line "<text>") "</text>") "<br/>" ""

/-- The text written for a positioned line:
`fmt.Sprintf("  <text x=\"10\" y=\"%d\">%s</text>", y, line)` followed by the
newline of the next `WriteString`. -/
def textElement (y : Int) (line : String) : String :=
  "  <text x=\"10\" y=\"" ++ formatInt y ++ "\">" ++ line ++ "</text>" ++ "\n"

/-- What iteration `i` of the loop of `WrapSVG` writes to the builder for `line`:
nothing for a line that is skipped or empty after stripping, one positioned text
element otherwise, with `y := (i + 1) * lineHeight` in `int` arithmetic. -/
def lineOutput (lineHeight : Int) (i : Nat) (line : String) : List String :=
  if line = "" ∨ line = "<text>" ∨ line = "</text>" then []
  else if stripLine line ≠ "" then
    [textElement (wrapInt (((i : Int) + 1) * lineHeight)) (stripLine line)]
  else []

/-- The loop `for i, line := range lines` of `WrapSVG`, from index `i` on: the texts
written to the builder, in order. -/
def positionLines (lineHeight : Int) : Nat → List String → List String
  | _, [] => []
  | i, line :: rest => lineOutput lineHeight i line ++ positionLines lineHeight (i + 1) rest

/-- The opening tag written first by `WrapSVG`. -/
def svgHeader (width height : Int) : String :=
  "<svg xmlns=\"http://www.w3.org/2000/svg\" width=\"" ++ formatInt width ++
    "\" height=\"" ++ formatInt height ++
    "\" viewBox=\"0 0 " ++ formatInt width ++ " " ++ formatInt height ++ "\">"

/-- The style element written by `WrapSVG`. -/
def svgStyle (fontFamily : String) (fontSize : Int) : String :=
  "\n  <style>text \x7b font-family: " ++ fontFamily ++ "; font-size: " ++
    (formatInt fontSize ++ "px") ++ "; white-space: pre; \x7d</style>\n"

/-- WrapSVG wraps the rendered ASCII art in a complete SVG document. -/
def WrapSVG (content : String) (opts : SVGOptions) : String :=
  let width := if opts.Width = 0 then 800 else opts.Width
  let height := if opts.Height = 0 then 200 else opts.Height
  let fontFamily := if opts.FontFamily = "" then "monospace" else opts.FontFamily
  let fontSize := if opts.FontSize = 0 then 14 else opts.FontSize
  let lineHeight := wrapInt (fontSize + 2)
  let lines := Split content
  svgHeader width height ++ svgStyle fontFamily fontSize ++
    String.join (positionLines lineHeight 0 lines) ++ "</svg>"

/-- The options `opts` with every zero-valued field replaced by its default: Width 0
by 800, Height 0 by 200, FontFamily "" by "monospace", FontSize 0 by 14 (the
wording of the claim on defaults). -/
def SVGOptions.defaulted (opts : SVGOptions) : SVGOptions where
  Width := if opts.Width = 0 then 800 else opts.Width
  Height := if opts.Height = 0 then 200 else opts.Height
  FontFamily := if opts.FontFamily = "" then "monospace" else opts.FontFamily
  FontSize := if opts.FontSize = 0 then 14 else opts.FontSize

/-- The text elements expected for the lines of a content, in the words of the
claim on positions: the lines are numbered from `first` on, every line that is not
empty after stripping gives one element `<text x="10" y="Y">stripped line</text>`
with `Y = (i + 1) * lineHeight` computed exactly, in the order of the lines. -/
def expectedElements (lineHeight : Int) (first : Nat) (lines : List String) : List String :=
  ((lines.enumFrom first).filter fun il => stripLine il.2 ≠ "").map fun il =>
    textElement (((il.1 : Int) + 1) * lineHeight) (stripLine il.2)

/-- The text elements of a document in `int` arithmetic: the lines are numbered from
`first` on, every line that is not empty after stripping gives one element
`<text x="10" y="Y">stripped line</text>`, in the order of the lines, with
`Y = (i + 1) * lineHeight` brought into the range of an `int`. -/
def positionedElements (lineHeight : Int) (first : Nat) (lines : List String) : List String :=
  ((lines.enumFrom first).filter fun il => stripLine il.2 ≠ "").map fun il =>
    textElement (wrapInt (((il.1 : Int) + 1) * lineHeight)) (stripLine il.2)

/-- The scan of Go `strings.Count(s, sub)` for a non-empty `sub`, on characters: the
text is read left to right; where `sub` starts, one instance is counted and the
remaining `sub.length - 1` characters of the match are skipped. -/
def countScan (sub : List Char) : List Char → Nat → Nat
  | [], _ => 0
  | _ :: rest, skip + 1 => countScan sub rest skip
  | c :: rest, 0 =>
    if sub.isPrefixOf (c :: rest) then 1 + countScan sub rest (sub.length - 1)
    else countScan sub rest 0

/-- Go `strings.Count(s, sub)` (standard library): the number of non-overlapping
instances of `sub` in `s`; for an empty `sub`, one more than the number of
characters of `s`. -/
def Count (s sub : String) : Nat :=
  if sub.data = [] then s.data.length + 1 else countScan sub.data s.data 0

/-- The number of positions of a text at which `sub` starts (instances may overlap). -/
def occurrences (sub : List Char) : List Char → Nat
  | [] => 0
  | c :: rest => (if sub.isPrefixOf (c :: rest) then 1 else 0) + occurrences sub rest

/-- The characters of `<text x="10"`, the text with which every positioned element
written by `WrapSVG` starts. -/
def textMarker : List Char := "<text x=\"10\"".data

/-! ## Lookup lemmas -/

theorem GetParser_terminal :
    GetParser "terminal" = (some ⟨"terminal", "", "", "", "\n", none⟩, none) := by
  decide

theorem GetParser_html :
    GetParser "html"
      = (some ⟨"html", "<code>", "</code>", "", "<br>", some [(" ", "&nbsp;")]⟩, none) := by
  decide

theorem GetParser_svg :
    GetParser "svg"
      = (some ⟨"svg", "", "", "<tspan x=\"10\" dy=\"1em\">", "</tspan>",
          some [(" ", "&#160;")]⟩, none) := by
  decide

theorem GetParser_unregistered (key : String) (h : ¬ registered key) :
    GetParser key = (none, some ("Invalid parser key: " ++ key)) := by
  simp only [registered, not_or] at h
  obtain ⟨h1, h2, h3⟩ := h
  have e1 : ("terminal" == key) = false := by
    rw [beq_eq_false_iff_ne]; exact fun e => h1 e.symm
  have e2 : ("html" == key) = false := by
    rw [beq_eq_false_iff_ne]; exact fun e => h2 e.symm
  have e3 : ("svg" == key) = false := by
    rw [beq_eq_false_iff_ne]; exact fun e => h3 e.symm
  have e1k : (key == "terminal") = false := by
    rw [beq_eq_false_iff_ne]; exact h1
  have e2k : (key == "html") = false := by
    rw [beq_eq_false_iff_ne]; exact h2
  have e3k : (key == "svg") = false := by
    rw [beq_eq_false_iff_ne]; exact h3
  simp [GetParser, parsers, List.lookup, e1, e2, e3, e1k, e2k, e3k]

/-! ## The registry lookup -/

/-- C1: for every key, `GetParser key` returns a nil error exactly when `key` is one
of "terminal", "html", "svg"; for every other key the returned descriptor is nil (no
fallback descriptor is substituted). The lookup is case-sensitive: "SVG", "Html",
"xml", "invalid" and the empty string all fail. -/
theorem GetParser_succeeds_iff_registered (key : String) :
    ((GetParser key).2 = none ↔ key = "terminal" ∨ key = "html" ∨ key = "svg") ∧
    ((GetParser key).1 = none ↔ ¬ (key = "terminal" ∨ key = "html" ∨ key = "svg")) ∧
    GetParser "SVG" = (none, some "Invalid parser key: SVG") ∧
    GetParser "Html" = (none, some "Invalid parser key: Html") ∧
    GetParser "xml" = (none, some "Invalid parser key: xml") ∧
    GetParser "invalid" = (none, some "Invalid parser key: invalid") ∧
    GetParser "" = (none, some "Invalid parser key: ") := by
  refine ⟨?_, ?_, by decide, by decide, by decide, by decide, by decide⟩
  · by_cases h : registered key
    · have h2 := h
      rcases h with h | h | h <;> subst h
      · simp [GetParser_terminal]
      · simp [GetParser_html]
      · simp [GetParser_svg]
    · rw [GetParser_unregistered key h]
      simpa [registered] using h
  · by_cases h : registered key
    · have h2 := h
      rcases h with h | h | h <;> subst h
      · simp [GetParser_terminal]
      · simp [GetParser_html]
      · simp [GetParser_svg]
    · rw [GetParser_unregistered key h]
      simpa [registered] using h

/-- C2: for every unregistered key `GetParser key` returns a nil descriptor and an
error whose message is "Invalid parser key: " followed by the key (so the message
ends with, hence contains, the key); for every registered key it returns a non-nil
descriptor and a nil error; for every key exactly one of the two results is non-nil. -/
theorem GetParser_descriptor_xor_error (key : String) :
    (¬ (key = "terminal" ∨ key = "html" ∨ key = "svg") →
      GetParser key = (none, some ("Invalid parser key: " ++ key)) ∧
      ∃ msg, (GetParser key).2 = some msg ∧
        msg.data = "Invalid parser key: ".data ++ key.data ∧ key.data <:+ msg.data) ∧
    ((key = "terminal" ∨ key = "html" ∨ key = "svg") →
      (GetParser key).1.isSome = true ∧ (GetParser key).2 = none) ∧
    ((GetParser key).1.isSome = true ↔ (GetParser key).2 = none) ∧
    ((GetParser key).1 = none ↔ (GetParser key).2.isSome = true) := by
  by_cases h : registered key
  · have hk : key = "terminal" ∨ key = "html" ∨ key = "svg" := h
    refine ⟨fun hn => absurd hk hn, fun _ => ?_, ?_, ?_⟩ <;>
      rcases h with h | h | h <;> subst h <;>
      simp [GetParser_terminal, GetParser_html, GetParser_svg]
  · have hk : ¬ (key = "terminal" ∨ key = "html" ∨ key = "svg") := h
    rw [GetParser_unregistered key h]
    refine ⟨fun _ => ⟨rfl, _, rfl, ?_, ?_⟩, fun hr => absurd hr hk, by simp, by simp⟩
    · simp [String.data_append]
    · rw [String.data_append]
      exact List.suffix_append _ _

/-- C2, at the unregistered key "xml" and the registered key "svg". -/
theorem GetParser_descriptor_xor_error_witness :
    GetParser "xml" = (none, some ("Invalid parser key: " ++ "xml")) ∧
      ((GetParser "svg").1.isSome = true ∧ (GetParser "svg").2 = none) :=
  ⟨((GetParser_descriptor_xor_error "xml").1 (by decide)).1,
   (GetParser_descriptor_xor_error "svg").2.1 (by decide)⟩

/-- C3: whenever `GetParser key` returns a descriptor, the Name field of that
descriptor equals `key`. -/
theorem GetParser_name_eq_key (key : String) (p : Parser)
    (h : (GetParser key).1 = some p) : p.Name = key := by
  by_cases hr : registered key
  · rcases hr with hk | hk | hk <;> subst hk
    · rw [GetParser_terminal] at h; simp at h; subst h; rfl
    · rw [GetParser_html] at h; simp at h; subst h; rfl
    · rw [GetParser_svg] at h; simp at h; subst h; rfl
  · rw [GetParser_unregistered key hr] at h
    simp at h

/-- C3, at the key "svg": the descriptor returned for "svg" is named "svg". -/
theorem GetParser_name_eq_key_witness :
    (GetParser "svg").1
        = some ⟨"svg", "", "", "<tspan x=\"10\" dy=\"1em\">", "</tspan>",
            some [(" ", "&#160;")]⟩ ∧
      (Parser.mk "svg" "" "" "<tspan x=\"10\" dy=\"1em\">" "</tspan>"
        (some [(" ", "&#160;")])).Name = "svg" :=
  ⟨by decide, GetParser_name_eq_key "svg" _ (by decide)⟩

/-! ## The built-in descriptors -/

/-- C4 (the code differs from the claim): the descriptor returned by `GetParser "svg"`
has an empty Prefix and an empty Suffix; neither is "<text>" or "</text>". -/
theorem GetParser_svg_prefix_suffix_empty :
    ∃ p, (GetParser "svg").1 = some p ∧ p.Prefix = "" ∧ p.Suffix = "" ∧
      p.Prefix ≠ "<text>" ∧ p.Suffix ≠ "</text>" :=
  ⟨_, rfl, rfl, rfl, by decide, by decide⟩

/-- C5: the descriptor returned by `GetParser "svg"` has LinePrefix
`<tspan x="10" dy="1em">` (23 characters) and LineSuffix `</tspan>`. -/
theorem GetParser_svg_line_wrapping :
    ∃ p, (GetParser "svg").1 = some p ∧
      p.LinePrefix = "<tspan x=\"10\" dy=\"1em\">" ∧ p.LinePrefix.length = 23 ∧
      p.LineSuffix = "</tspan>" :=
  ⟨_, rfl, rfl, by decide, rfl⟩

/-- C6 (the code differs from the claim): the descriptor returned by
`GetParser "svg"` has six fields, none called NewLine; the field that ends a line,
LineSuffix, is "</tspan>", and "<br/>" is neither one of its five string fields nor a
key or value of its replacement map. -/
theorem GetParser_svg_no_line_break_marker :
    ∃ p, (GetParser "svg").1 = some p ∧ p.LineSuffix = "</tspan>" ∧
      p.LineSuffix ≠ "<br/>" ∧
      "<br/>" ∉ [p.Name, p.Prefix, p.Suffix, p.LinePrefix, p.LineSuffix] ∧
      p.Replaces = some [(" ", "&#160;")] ∧
      ∀ kv ∈ p.Replaces.getD [], kv.1 ≠ "<br/>" ∧ kv.2 ≠ "<br/>" :=
  ⟨_, rfl, rfl, by decide, by decide, rfl, by decide⟩

/-- C7: the descriptor returned by `GetParser "html"` has Prefix "<code>", Suffix
"</code>", an empty LinePrefix, LineSuffix "<br>", and a replacement map whose only
entry maps the single space to "&nbsp;". -/
theorem GetParser_html_fields :
    ∃ p, (GetParser "html").1 = some p ∧ p.Prefix = "<code>" ∧ p.Suffix = "</code>" ∧
      p.LinePrefix = "" ∧ p.LineSuffix = "<br>" ∧
      p.Replaces = some [(" ", "&nbsp;")] ∧
      (p.Replaces.getD []).length = 1 ∧ (p.Replaces.getD []).lookup " " = some "&nbsp;" :=
  ⟨_, rfl, rfl, rfl, rfl, rfl, rfl, rfl, by decide⟩

/-- C8 as stated fails: the descriptor returned by `GetParser "terminal"` does not
have all of Prefix, Suffix, LinePrefix and LineSuffix empty together with a nil or
empty replacement map, because its LineSuffix is the newline. -/
theorem GetParser_terminal_not_all_empty :
    ¬ ∃ p, (GetParser "terminal").1 = some p ∧ p.Prefix = "" ∧ p.Suffix = "" ∧
      p.LinePrefix = "" ∧ p.LineSuffix = "" ∧
      (p.Replaces = none ∨ p.Replaces = some []) := by
  rintro ⟨p, hp, -, -, -, hs, -⟩
  rw [GetParser_terminal] at hp
  simp only [Option.some.injEq] at hp
  subst hp
  exact absurd hs (by decide)

/-- C8, amended: the descriptor returned by `GetParser "terminal"` has an empty
Prefix, an empty Suffix, an empty LinePrefix, the one-character LineSuffix "\n"
(a newline), and a nil replacement map (no escapes). -/
theorem GetParser_terminal_fields :
    ∃ p, (GetParser "terminal").1 = some p ∧ p.Prefix = "" ∧ p.Suffix = "" ∧
      p.LinePrefix = "" ∧ p.LineSuffix = "\n" ∧ p.LineSuffix.data = [Char.ofNat 10] ∧
      p.Replaces = none :=
  ⟨_, rfl, rfl, rfl, rfl, rfl, by decide, rfl⟩

/-! ## Replacements -/

theorem replaceScan_space (new l : List Char) :
    replaceScan [' '] new l 0 = l.flatMap fun c => if c = ' ' then new else [c] := by
  induction l with
  | nil => rfl
  | cons c rest ih =>
    by_cases hc : c = ' '
    · subst hc
      simp [replaceScan, List.isPrefixOf, ih]
    · have hb : (' ' == c) = false := by
        rw [beq_eq_false_iff_ne]; exact fun e => hc e.symm
      simp [replaceScan, List.isPrefixOf, ih, hc, hb]

theorem ReplaceAll_space (s new : String) :
    ReplaceAll s " " new = spacesReplaced new s := by
  have h : (" " : String).data = [' '] := rfl
  simp [ReplaceAll, spacesReplaced, h, replaceScan_space]

/-- C9: applying the replacement map of a registered descriptor to any string `s`
(with `handleReplaces`, modelled from the spec) gives `s` with every space replaced
by "&nbsp;" for "html", `s` with every space replaced by "&#160;" for "svg", and `s`
itself for "terminal"; the html map is exactly the one entry " " to "&nbsp;", the svg
map exactly the one entry " " to "&#160;", the terminal map is nil. "Hello World"
becomes "Hello&nbsp;World", "Hello&#160;World" and "Hello World". -/
theorem handleReplaces_registered (s : String) :
    (∃ p, (GetParser "html").1 = some p ∧ p.Replaces = some [(" ", "&nbsp;")] ∧
      handleReplaces s p = spacesReplaced "&nbsp;" s ∧
      handleReplaces "Hello World" p = "Hello&nbsp;World") ∧
    (∃ p, (GetParser "svg").1 = some p ∧ p.Replaces = some [(" ", "&#160;")] ∧
      handleReplaces s p = spacesReplaced "&#160;" s ∧
      handleReplaces "Hello World" p = "Hello&#160;World") ∧
    (∃ p, (GetParser "terminal").1 = some p ∧ p.Replaces = none ∧
      handleReplaces s p = s ∧
      handleReplaces "Hello World" p = "Hello World") := by
  refine ⟨⟨_, rfl, rfl, ?_, by decide⟩, ⟨_, rfl, rfl, ?_, by decide⟩, ⟨_, rfl, rfl, rfl, rfl⟩⟩
  · exact ReplaceAll_space s "&nbsp;"
  · exact ReplaceAll_space s "&#160;"

/-! ## Retrieved descriptors and the registry -/

set_option maxRecDepth 100000

theorem render_some_eq {κ : Type} [DecidableEq κ] (span : Parser → κ → String → String)
    (lineJoin : String) (p : Parser) (lines : List String) (colors : List κ) :
    render span lineJoin (some p) lines colors
      = some (p.Prefix ++ joinWith lineJoin (encodeLines span p colors 0 lines) ++ p.Suffix) :=
  rfl

theorem HasPrefix_append_left (a b c : String) : HasPrefix (a ++ b ++ c) a :=
  ⟨b.data ++ c.data, by simp [String.data_append]⟩

theorem HasSuffix_append_right (a b c : String) : HasSuffix (a ++ b ++ c) c :=
  ⟨a.data ++ b.data, by simp [String.data_append]⟩

/-- Every encoded line of the svg descriptor starts with the characters `<ts`. -/
theorem encodeLine_svg_data {κ : Type} [DecidableEq κ] (span : Parser → κ → String → String)
    (colors : List κ) (cursor : Nat) (line : String) :
    ∃ rest, (encodeLine span
        ⟨"svg", "", "", "<tspan x=\"10\" dy=\"1em\">", "</tspan>", some [(" ", "&#160;")]⟩
        colors cursor line).1.data = '<' :: 't' :: 's' :: rest := by
  unfold encodeLine
  split
  · rename_i h
    exact ⟨_, by rw [h]; rfl⟩
  · split
    · exact ⟨_, by simp only [String.data_append]; rfl⟩
    · exact ⟨_, by simp only [String.data_append]; rfl⟩

/-- The svg rendering of at least one line starts with the characters `<ts`. -/
theorem joinWith_encodeLines_svg_data {κ : Type} [DecidableEq κ]
    (span : Parser → κ → String → String) (lineJoin : String) (colors : List κ)
    (cursor : Nat) (line : String) (lines : List String) :
    ∃ rest, (joinWith lineJoin (encodeLines span
        ⟨"svg", "", "", "<tspan x=\"10\" dy=\"1em\">", "</tspan>", some [(" ", "&#160;")]⟩
        colors cursor (line :: lines))).data = '<' :: 't' :: 's' :: rest := by
  obtain ⟨r, hr⟩ := encodeLine_svg_data span colors cursor line
  cases lines with
  | nil => exact ⟨r, by simp only [encodeLines, joinWith]; exact hr⟩
  | cons l2 ls =>
    simp only [encodeLines, joinWith, String.data_append, hr]
    exact ⟨_, rfl⟩

/-- C11 (the code differs from the claim; `render` is modelled from the spec): for
each of "terminal", "html" and "svg", every line list and every colour sequence,
rendering with the descriptor returned by `GetParser` succeeds and the output begins
with the Prefix and ends with the Suffix of that descriptor. For "svg" these are
empty, and the output never begins with "<text>"; the empty input renders to the
empty string, which neither begins with "<text>" nor ends with "</text>". -/
theorem render_prefix_suffix_svg_not_text {κ : Type} [DecidableEq κ]
    (span : Parser → κ → String → String) (lineJoin : String) (lines : List String)
    (colors : List κ) :
    (∃ p out, (GetParser "terminal").1 = some p ∧
      render span lineJoin (GetParser "terminal").1 lines colors = some out ∧
      HasPrefix out p.Prefix ∧ HasSuffix out p.Suffix) ∧
    (∃ p out, (GetParser "html").1 = some p ∧
      render span lineJoin (GetParser "html").1 lines colors = some out ∧
      HasPrefix out p.Prefix ∧ HasSuffix out p.Suffix) ∧
    (∃ p out, (GetParser "svg").1 = some p ∧
      render span lineJoin (GetParser "svg").1 lines colors = some out ∧
      HasPrefix out p.Prefix ∧ HasSuffix out p.Suffix ∧ p.Prefix = "" ∧ p.Suffix = "" ∧
      ¬ HasPrefix out "<text>") ∧
    render span lineJoin (GetParser "svg").1 [] colors = some "" ∧
    ¬ HasPrefix "" "<text>" ∧ ¬ HasSuffix "" "</text>" := by
  refine ⟨?_, ?_, ?_, rfl, by decide, by decide⟩
  · rw [GetParser_terminal]
    exact ⟨_, _, rfl, render_some_eq span lineJoin _ lines colors,
      HasPrefix_append_left _ _ _, HasSuffix_append_right _ _ _⟩
  · rw [GetParser_html]
    exact ⟨_, _, rfl, render_some_eq span lineJoin _ lines colors,
      HasPrefix_append_left _ _ _, HasSuffix_append_right _ _ _⟩
  · rw [GetParser_svg]
    refine ⟨_, _, rfl, render_some_eq span lineJoin _ lines colors,
      HasPrefix_append_left _ _ _, HasSuffix_append_right _ _ _, rfl, rfl, ?_⟩
    cases lines with
    | nil =>
      rintro ⟨t, ht⟩
      simp [encodeLines, joinWith, String.data_append] at ht
    | cons line rest =>
      obtain ⟨r, hr⟩ := joinWith_encodeLines_svg_data span lineJoin colors 0 line rest
      rintro ⟨t, ht⟩
      simp [String.data_append, hr] at ht

/-- C12 (the code differs from the claim; `render` is modelled from the spec):
rendering the single line "A B" with the descriptor returned by `GetParser "svg"`
and no colours yields `<tspan x="10" dy="1em">A&#160;B</tspan>`, without the
`<text>` and `</text>` of the claimed output. -/
theorem render_svg_A_B {κ : Type} [DecidableEq κ]
    (span : Parser → κ → String → String) (lineJoin : String) :
    render span lineJoin (GetParser "svg").1 ["A B"] ([] : List κ)
      = some "<tspan x=\"10\" dy=\"1em\">A&#160;B</tspan>" ∧
    render span lineJoin (GetParser "svg").1 ["A B"] ([] : List κ)
      ≠ some "<text><tspan x=\"10\" dy=\"1em\">A&#160;B</tspan></text>" := by
  have h : render span lineJoin (GetParser "svg").1 ["A B"] ([] : List κ)
      = some "<tspan x=\"10\" dy=\"1em\">A&#160;B</tspan>" := by
    rw [GetParser_svg, render_some_eq]
    have e : encodeLines span
        ⟨"svg", "", "", "<tspan x=\"10\" dy=\"1em\">", "</tspan>", some [(" ", "&#160;")]⟩
        ([] : List κ) 0 ["A B"] = ["<tspan x=\"10\" dy=\"1em\">A&#160;B</tspan>"] := by
      simp only [encodeLines, encodeLine]
      rw [if_neg (by decide), if_pos (by rfl)]
      decide
    rw [e]
    simp only [joinWith]
    decide
  refine ⟨h, ?_⟩
  rw [h]
  decide

/-! ## Escaping twice -/

theorem flatMap_space_of_not_mem (entity : List Char) :
    ∀ l : List Char, ' ' ∉ l →
      (l.flatMap fun c => if c = ' ' then entity else [c]) = l := by
  intro l
  induction l with
  | nil => intro _; rfl
  | cons c rest ih =>
    intro h
    simp only [List.mem_cons, not_or] at h
    have hc : c ≠ ' ' := fun e => h.1 e.symm
    simp only [List.flatMap_cons, if_neg hc, ih h.2, List.singleton_append]

theorem spacesReplaced_idempotent (entity s : String) (h : ' ' ∉ entity.data) :
    spacesReplaced entity (spacesReplaced entity s) = spacesReplaced entity s := by
  unfold spacesReplaced
  congr 1
  simp only
  induction s.data with
  | nil => rfl
  | cons c rest ih =>
    by_cases hc : c = ' '
    · simp only [List.flatMap_cons, if_pos hc, List.flatMap_append, ih,
        flatMap_space_of_not_mem entity.data entity.data h]
    · simp only [List.flatMap_cons, if_neg hc, List.flatMap_append, ih, List.flatMap_nil,
        List.append_nil, List.singleton_append, List.nil_append]

/-- C13 (`handleReplaces` is modelled from the spec): for each of "terminal", "html"
and "svg", no replacement text of the descriptor's Replaces map contains a key of
the same map; applying the replacements to an already escaped string changes
nothing; and the result is the same for every order of the map's entries. -/
theorem handleReplaces_no_double_escaping (s : String) :
    (∃ p, (GetParser "terminal").1 = some p ∧
      (∀ kv ∈ p.Replaces.getD [], ∀ kv2 ∈ p.Replaces.getD [], ¬ Contains kv.2 kv2.1) ∧
      handleReplaces (handleReplaces s p) p = handleReplaces s p ∧
      ∀ es, es.Perm (p.Replaces.getD []) →
        handleReplaces s { p with Replaces := p.Replaces.map fun _ => es }
          = handleReplaces s p) ∧
    (∃ p, (GetParser "html").1 = some p ∧
      (∀ kv ∈ p.Replaces.getD [], ∀ kv2 ∈ p.Replaces.getD [], ¬ Contains kv.2 kv2.1) ∧
      ¬ Contains "&nbsp;" " " ∧
      handleReplaces (handleReplaces s p) p = handleReplaces s p ∧
      ∀ es, es.Perm (p.Replaces.getD []) →
        handleReplaces s { p with Replaces := p.Replaces.map fun _ => es }
          = handleReplaces s p) ∧
    (∃ p, (GetParser "svg").1 = some p ∧
      (∀ kv ∈ p.Replaces.getD [], ∀ kv2 ∈ p.Replaces.getD [], ¬ Contains kv.2 kv2.1) ∧
      ¬ Contains "&#160;" " " ∧
      handleReplaces (handleReplaces s p) p = handleReplaces s p ∧
      ∀ es, es.Perm (p.Replaces.getD []) →
        handleReplaces s { p with Replaces := p.Replaces.map fun _ => es }
          = handleReplaces s p) := by
  refine ⟨⟨_, rfl, by decide, rfl, fun es _ => rfl⟩,
    ⟨_, rfl, by decide, by decide, ?_, ?_⟩, ⟨_, rfl, by decide, by decide, ?_, ?_⟩⟩
  · show ReplaceAll (ReplaceAll s " " "&nbsp;") " " "&nbsp;" = ReplaceAll s " " "&nbsp;"
    rw [ReplaceAll_space, ReplaceAll_space]
    exact spacesReplaced_idempotent _ s (by decide)
  · intro es hes
    have he : es = [(" ", "&nbsp;")] := List.perm_singleton.mp hes
    subst he
    rfl
  · show ReplaceAll (ReplaceAll s " " "&#160;") " " "&#160;" = ReplaceAll s " " "&#160;"
    rw [ReplaceAll_space, ReplaceAll_space]
    exact spacesReplaced_idempotent _ s (by decide)
  · intro es hes
    have he : es = [(" ", "&#160;")] := List.perm_singleton.mp hes
    subst he
    rfl

/-! ## The SVG document -/

theorem WrapSVG_eq (content : String) (opts : SVGOptions) :
    WrapSVG content opts
      = svgHeader opts.defaulted.Width opts.defaulted.Height ++
          svgStyle opts.defaulted.FontFamily opts.defaulted.FontSize ++
          String.join (positionLines (wrapInt (opts.defaulted.FontSize + 2)) 0 (Split content)) ++
          "</svg>" :=
  rfl

theorem svgHeader_data (width height : Int) :
    ∃ rest, (svgHeader width height).data
      = "<svg xmlns=\"http://www.w3.org/2000/svg\"".data ++ rest := by
  refine ⟨" width=\"".data ++ ((formatInt width).data ++ ("\" height=\"".data ++
    ((formatInt height).data ++ ("\" viewBox=\"0 0 ".data ++ ((formatInt width).data ++
    (" ".data ++ ((formatInt height).data ++ "\">".data))))))), ?_⟩
  simp only [svgHeader, String.data_append, List.append_assoc]
  rfl

/-- C14: for every content and every options, the document returned by `WrapSVG`
begins with `<svg xmlns="http://www.w3.org/2000/svg"`, hence with `<svg`, ends with
`</svg>`, and contains both `<svg` and `</svg>`. -/
theorem WrapSVG_svg_envelope (content : String) (opts : SVGOptions) :
    HasPrefix (WrapSVG content opts) "<svg xmlns=\"http://www.w3.org/2000/svg\"" ∧
    HasPrefix (WrapSVG content opts) "<svg" ∧
    HasSuffix (WrapSVG content opts) "</svg>" ∧
    Contains (WrapSVG content opts) "<svg" ∧
    Contains (WrapSVG content opts) "</svg>" := by
  obtain ⟨r, hr⟩ := svgHeader_data opts.defaulted.Width opts.defaulted.Height
  have hd : ∃ rest, (WrapSVG content opts).data
      = "<svg xmlns=\"http://www.w3.org/2000/svg\"".data ++ rest := by
    rw [WrapSVG_eq]
    simp only [String.data_append, hr, List.append_assoc]
    exact ⟨_, rfl⟩
  obtain ⟨rest, hrest⟩ := hd
  have hs : ∃ front, (WrapSVG content opts).data = front ++ "</svg>".data := by
    rw [WrapSVG_eq]
    simp only [String.data_append]
    exact ⟨_, rfl⟩
  obtain ⟨front, hfront⟩ := hs
  have h4 : "<svg xmlns=\"http://www.w3.org/2000/svg\"".data
      = "<svg".data ++ " xmlns=\"http://www.w3.org/2000/svg\"".data := by decide
  refine ⟨⟨rest, hrest.symm⟩, ⟨" xmlns=\"http://www.w3.org/2000/svg\"".data ++ rest, ?_⟩,
    ⟨front, hfront.symm⟩,
    ⟨[], " xmlns=\"http://www.w3.org/2000/svg\"".data ++ rest, ?_⟩, ⟨front, [], ?_⟩⟩
  · rw [hrest, h4, List.append_assoc]
  · rw [hrest, h4, List.nil_append, List.append_assoc]
  · rw [hfront, List.append_nil]

theorem SVGOptions.defaulted_defaulted (opts : SVGOptions) :
    opts.defaulted.defaulted = opts.defaulted := by
  have hs : ("monospace" : String) ≠ "" := by decide
  simp only [SVGOptions.defaulted]
  congr 1
  · split_ifs <;> simp_all
  · split_ifs <;> simp_all
  · split_ifs <;> simp_all
  · split_ifs <;> simp_all

/-- C16: `WrapSVG` treats a zero-valued option as its default, field by field. The
document returned for `opts` is the text written with Width 0 replaced by 800,
Height 0 by 200, FontFamily "" by "monospace" and FontSize 0 by 14, each field
tested on its own, and with every non-zero field as given: when no field is zero,
the document is written with `opts.Width`, `opts.Height`, `opts.FontFamily` and
`opts.FontSize` themselves. Hence the document for `opts` is the document for
`opts` with its zero fields defaulted, and the document for the all-zero options is
the document for 800, 200, "monospace", 14. For the content "a": the options
600, 150, "Courier New, monospace", 12 are used as given; of 0, 150, "", 12 only
Width and FontFamily are defaulted. -/
theorem WrapSVG_defaults (content : String) (opts : SVGOptions) :
    WrapSVG content opts = WrapSVG content opts.defaulted ∧
    WrapSVG content ⟨0, 0, "", 0⟩ = WrapSVG content ⟨800, 200, "monospace", 14⟩ ∧
    (opts.Width = 0 ∨ opts.Height = 0 ∨ opts.FontFamily = "" ∨ opts.FontSize = 0 ∨
      opts.defaulted = opts) ∧
    opts.defaulted
      = ⟨if opts.Width = 0 then 800 else opts.Width,
         if opts.Height = 0 then 200 else opts.Height,
         if opts.FontFamily = "" then "monospace" else opts.FontFamily,
         if opts.FontSize = 0 then 14 else opts.FontSize⟩ ∧
    WrapSVG content opts
      = ("<svg xmlns=\"http://www.w3.org/2000/svg\" width=\"" ++
            formatInt (if opts.Width = 0 then 800 else opts.Width) ++
            "\" height=\"" ++ formatInt (if opts.Height = 0 then 200 else opts.Height) ++
            "\" viewBox=\"0 0 " ++ formatInt (if opts.Width = 0 then 800 else opts.Width) ++
            " " ++ formatInt (if opts.Height = 0 then 200 else opts.Height) ++ "\">") ++
          ("\n  <style>text \x7b font-family: " ++
            (if opts.FontFamily = "" then "monospace" else opts.FontFamily) ++
            "; font-size: " ++
            (formatInt (if opts.FontSize = 0 then 14 else opts.FontSize) ++ "px") ++
            "; white-space: pre; \x7d</style>\n") ++
          String.join (positionLines
            (wrapInt ((if opts.FontSize = 0 then 14 else opts.FontSize) + 2)) 0
            (Split content)) ++
          "</svg>" ∧
    (opts.Width = 0 ∨ opts.Height = 0 ∨ opts.FontFamily = "" ∨ opts.FontSize = 0 ∨
      WrapSVG content opts
        = ("<svg xmlns=\"http://www.w3.org/2000/svg\" width=\"" ++ formatInt opts.Width ++
              "\" height=\"" ++ formatInt opts.Height ++
              "\" viewBox=\"0 0 " ++ formatInt opts.Width ++
              " " ++ formatInt opts.Height ++ "\">") ++
            ("\n  <style>text \x7b font-family: " ++ opts.FontFamily ++
              "; font-size: " ++ (formatInt opts.FontSize ++ "px") ++
              "; white-space: pre; \x7d</style>\n") ++
            String.join (positionLines (wrapInt (opts.FontSize + 2)) 0 (Split content)) ++
            "</svg>") ∧
    WrapSVG "a" ⟨600, 150, "Courier New, monospace", 12⟩
      = "<svg xmlns=\"http://www.w3.org/2000/svg\" width=\"600\" height=\"150\" viewBox=\"0 0 600 150\">\n  <style>text \x7b font-family: Courier New, monospace; font-size: 12px; white-space: pre; \x7d</style>\n  <text x=\"10\" y=\"14\">a</text>\n</svg>" ∧
    WrapSVG "a" ⟨0, 150, "", 12⟩
      = "<svg xmlns=\"http://www.w3.org/2000/svg\" width=\"800\" height=\"150\" viewBox=\"0 0 800 150\">\n  <style>text \x7b font-family: monospace; font-size: 12px; white-space: pre; \x7d</style>\n  <text x=\"10\" y=\"14\">a</text>\n</svg>" ∧
    WrapSVG "a" ⟨0, 0, "", 0⟩
      = "<svg xmlns=\"http://www.w3.org/2000/svg\" width=\"800\" height=\"200\" viewBox=\"0 0 800 200\">\n  <style>text \x7b font-family: monospace; font-size: 14px; white-space: pre; \x7d</style>\n  <text x=\"10\" y=\"16\">a</text>\n</svg>" := by
  have hno : opts.Width = 0 ∨ opts.Height = 0 ∨ opts.FontFamily = "" ∨ opts.FontSize = 0 ∨
      (opts.Width ≠ 0 ∧ opts.Height ≠ 0 ∧ opts.FontFamily ≠ "" ∧ opts.FontSize ≠ 0) := by
    by_cases h1 : opts.Width = 0
    · exact Or.inl h1
    by_cases h2 : opts.Height = 0
    · exact Or.inr (Or.inl h2)
    by_cases h3 : opts.FontFamily = ""
    · exact Or.inr (Or.inr (Or.inl h3))
    by_cases h4 : opts.FontSize = 0
    · exact Or.inr (Or.inr (Or.inr (Or.inl h4)))
    exact Or.inr (Or.inr (Or.inr (Or.inr ⟨h1, h2, h3, h4⟩)))
  have hexp : WrapSVG content opts
      = ("<svg xmlns=\"http://www.w3.org/2000/svg\" width=\"" ++
            formatInt (if opts.Width = 0 then 800 else opts.Width) ++
            "\" height=\"" ++ formatInt (if opts.Height = 0 then 200 else opts.Height) ++
            "\" viewBox=\"0 0 " ++ formatInt (if opts.Width = 0 then 800 else opts.Width) ++
            " " ++ formatInt (if opts.Height = 0 then 200 else opts.Height) ++ "\">") ++
          ("\n  <style>text \x7b font-family: " ++
            (if opts.FontFamily = "" then "monospace" else opts.FontFamily) ++
            "; font-size: " ++
            (formatInt (if opts.FontSize = 0 then 14 else opts.FontSize) ++ "px") ++
            "; white-space: pre; \x7d</style>\n") ++
          String.join (positionLines
            (wrapInt ((if opts.FontSize = 0 then 14 else opts.FontSize) + 2)) 0
            (Split content)) ++
          "</svg>" := rfl
  refine ⟨?_, ?_, ?_, rfl, hexp, ?_, by decide, by decide, by decide⟩
  · rw [WrapSVG_eq, WrapSVG_eq, SVGOptions.defaulted_defaulted]
  · rw [WrapSVG_eq, WrapSVG_eq]
    rfl
  · rcases hno with h | h | h | h | ⟨h1, h2, h3, h4⟩
    · exact Or.inl h
    · exact Or.inr (Or.inl h)
    · exact Or.inr (Or.inr (Or.inl h))
    · exact Or.inr (Or.inr (Or.inr (Or.inl h)))
    · refine Or.inr (Or.inr (Or.inr (Or.inr ?_)))
      simp only [SVGOptions.defaulted, if_neg h1, if_neg h2, if_neg h3, if_neg h4]
  · rcases hno with h | h | h | h | ⟨h1, h2, h3, h4⟩
    · exact Or.inl h
    · exact Or.inr (Or.inl h)
    · exact Or.inr (Or.inr (Or.inl h))
    · exact Or.inr (Or.inr (Or.inr (Or.inl h)))
    · refine Or.inr (Or.inr (Or.inr (Or.inr ?_)))
      rw [hexp]
      simp only [if_neg h1, if_neg h2, if_neg h3, if_neg h4]

/-! ## Line positions -/

theorem wrapInt_of_inIntRange (z : Int) (h : inIntRange z) : wrapInt z = z := by
  unfold inIntRange at h
  unfold wrapInt
  omega

theorem stripLine_skipped :
    stripLine "" = "" ∧ stripLine "<text>" = "" ∧ stripLine "</text>" = "" := by
  decide

/-- The first test of the loop body skips only lines that are empty after stripping. -/
theorem lineOutput_eq (lineHeight : Int) (i : Nat) (line : String) :
    lineOutput lineHeight i line
      = if stripLine line ≠ "" then
          [textElement (wrapInt (((i : Int) + 1) * lineHeight)) (stripLine line)]
        else [] := by
  unfold lineOutput
  by_cases h : line = "" ∨ line = "<text>" ∨ line = "</text>"
  · rw [if_pos h]
    have hs : stripLine line = "" := by
      rcases h with h | h | h <;> subst h
      · exact stripLine_skipped.1
      · exact stripLine_skipped.2.1
      · exact stripLine_skipped.2.2
    rw [if_neg (not_not.mpr hs)]
  · rw [if_neg h]

theorem positionLines_length_le (lineHeight : Int) (lines : List String) :
    ∀ i, (positionLines lineHeight i lines).length ≤ lines.length := by
  induction lines with
  | nil => intro i; simp [positionLines]
  | cons line rest ih =>
    intro i
    have h := ih (i + 1)
    simp only [positionLines, lineOutput_eq, List.length_append, List.length_cons]
    split_ifs <;> simp <;> omega

/-- Where no product overflows, the loop writes the expected elements. -/
theorem positionLines_eq_expectedElements (lineHeight : Int) (lines : List String) :
    ∀ i, (∀ k : Nat, i < k → k ≤ i + lines.length →
        wrapInt ((k : Int) * lineHeight) = (k : Int) * lineHeight) →
      positionLines lineHeight i lines = expectedElements lineHeight i lines := by
  induction lines with
  | nil => intro i _; rfl
  | cons line rest ih =>
    intro i h
    have hrest := ih (i + 1) (fun k hk hk2 => h k (by omega) (by simp only [List.length_cons]; omega))
    have hi : wrapInt (((i : Int) + 1) * lineHeight) = ((i : Int) + 1) * lineHeight := by
      have := h (i + 1) (by omega) (by simp only [List.length_cons]; omega)
      simpa using this
    unfold expectedElements at hrest ⊢
    simp only [positionLines, lineOutput_eq, hrest, List.enumFrom_cons, List.filter_cons]
    by_cases hs : stripLine line = ""
    · simp [hs]
    · simp [hs, hi]

theorem inIntRange_mul_of_le (n k : Nat) (z : Int)
    (hn : inIntRange ((n : Int) * z)) (hk : k ≤ n) : inIntRange ((k : Int) * z) := by
  unfold inIntRange at *
  have hkn : (k : Int) ≤ (n : Int) := by exact_mod_cast hk
  have hk0 : (0 : Int) ≤ (k : Int) := by positivity
  rcases le_or_lt 0 z with h0 | h0
  · have h1 : (k : Int) * z ≤ (n : Int) * z := Int.mul_le_mul_of_nonneg_right hkn h0
    have h2 : 0 ≤ (k : Int) * z := Int.mul_nonneg hk0 h0
    omega
  · have h1 : (n : Int) * z ≤ (k : Int) * z :=
      Int.mul_le_mul_of_nonpos_right hkn (le_of_lt h0)
    have h2 : (k : Int) * z ≤ 0 := Int.mul_nonpos_of_nonneg_of_nonpos hk0 (le_of_lt h0)
    omega

/-! ## Text elements of the document -/

/-- An occurrence of `p` in `X ++ c :: Y` lies in `X` or in `Y` when `c` is not a
character of `p`. -/
theorem infix_append_cons_of_not_mem {p X Y : List Char} {c : Char} (hc : c ∉ p)
    (h : p <:+: X ++ c :: Y) : p <:+: X ∨ p <:+: Y := by
  obtain ⟨s, t, h⟩ := h
  rw [List.append_eq_append_iff] at h
  rcases h with ⟨a, hX, -⟩ | ⟨c1, h1, h2⟩
  · exact Or.inl ⟨s, a, hX.symm⟩
  · cases c1 with
    | nil => exact Or.inl ⟨s, [], by simpa using h1⟩
    | cons d c2 =>
      simp only [List.cons_append, List.cons.injEq] at h2
      obtain ⟨hd, hY⟩ := h2
      subst hd
      rw [List.append_eq_append_iff] at h1
      rcases h1 with ⟨a, -, hp⟩ | ⟨c3, hs, hc3⟩
      · exact absurd (by rw [hp]; simp) hc
      · cases c3 with
        | nil =>
          simp only [List.nil_append] at hc3
          exact absurd (by rw [← hc3]; simp) hc
        | cons e c4 =>
          simp only [List.cons_append, List.cons.injEq] at hc3
          exact Or.inr ⟨c4, t, by rw [hY, hc3.2]⟩

theorem not_infix_append_cons {p X Y : List Char} {c : Char} (hc : c ∉ p)
    (hX : ¬ p <:+: X) (hY : ¬ p <:+: Y) : ¬ p <:+: X ++ c :: Y :=
  fun h => (infix_append_cons_of_not_mem hc h).elim hX hY

theorem not_infix_of_not_mem {p l : List Char} {c : Char} (hp : c ∈ p) (hl : c ∉ l) :
    ¬ p <:+: l := by
  rintro ⟨s, t, h⟩
  exact hl (by rw [← h]; simp [hp])

theorem digitChar_ne_lt : ∀ m : Nat, m < 10 → Nat.digitChar m ≠ '<' := by
  decide

theorem toDigitsCore_no_lt : ∀ (fuel n : Nat) (ds : List Char), '<' ∉ ds →
    '<' ∉ Nat.toDigitsCore 10 fuel n ds := by
  intro fuel
  induction fuel with
  | zero => intro n ds h; simpa [Nat.toDigitsCore] using h
  | succ f ih =>
    intro n ds h
    have hd : '<' ∉ Nat.digitChar (n % 10) :: ds := by
      simp only [List.mem_cons, not_or]
      exact ⟨fun e => digitChar_ne_lt _ (Nat.mod_lt n (by decide)) e.symm, h⟩
    simp only [Nat.toDigitsCore]
    split_ifs
    · exact hd
    · exact ih _ _ hd

theorem formatInt_no_lt (z : Int) : '<' ∉ (formatInt z).data := by
  have hrepr : ∀ n : Nat, '<' ∉ (Nat.repr n).data := fun n =>
    toDigitsCore_no_lt (n + 1) n [] (by simp)
  cases z with
  | ofNat n => exact hrepr n
  | negSucc n =>
    simp only [formatInt, String.data_append, List.mem_append, not_or]
    exact ⟨by decide, hrepr (n + 1)⟩

/-- The document without a text element, cut at characters that do not occur in
`<text`: the double quote (character 34), the space, the semicolon and `p`. -/
theorem emptyDocument_data (width height fontSize : Int) (fontFamily : String) :
    (svgHeader width height ++ svgStyle fontFamily fontSize ++ String.join [] ++ "</svg>").data
      = "<svg xmlns=\"http://www.w3.org/2000/svg\" width=".data ++ Char.ofNat 34 ::
        ((formatInt width).data ++ Char.ofNat 34 ::
        (" height=".data ++ Char.ofNat 34 ::
        ((formatInt height).data ++ Char.ofNat 34 ::
        (" viewBox=\"0 0".data ++ ' ' ::
        ((formatInt width).data ++ ' ' ::
        ((formatInt height).data ++ Char.ofNat 34 ::
        (">\n  <style>text \x7b font-family:".data ++ ' ' ::
        (fontFamily.data ++ ';' ::
        (" font-size:".data ++ ' ' ::
        ((formatInt fontSize).data ++ 'p' ::
        "x; white-space: pre; \x7d</style>\n</svg>".data)))))))))) := by
  simp only [svgHeader, svgStyle, String.data_append, String.data_join, List.map_nil,
    List.flatten_nil, List.append_nil, List.append_assoc]
  rfl

theorem emptyDocument_no_text (width height fontSize : Int) (fontFamily : String)
    (h : ¬ Contains fontFamily "<text") :
    ¬ Contains
      (svgHeader width height ++ svgStyle fontFamily fontSize ++ String.join [] ++ "</svg>")
      "<text" := by
  have hnum : ∀ z : Int, ¬ "<text".data <:+: (formatInt z).data := fun z =>
    not_infix_of_not_mem (by decide) (formatInt_no_lt z)
  unfold Contains
  rw [emptyDocument_data]
  refine not_infix_append_cons (by decide) (by decide) ?_
  refine not_infix_append_cons (by decide) (hnum _) ?_
  refine not_infix_append_cons (by decide) (by decide) ?_
  refine not_infix_append_cons (by decide) (hnum _) ?_
  refine not_infix_append_cons (by decide) (by decide) ?_
  refine not_infix_append_cons (by decide) (hnum _) ?_
  refine not_infix_append_cons (by decide) (hnum _) ?_
  refine not_infix_append_cons (by decide) (by decide) ?_
  refine not_infix_append_cons (by decide) h ?_
  refine not_infix_append_cons (by decide) (by decide) ?_
  exact not_infix_append_cons (by decide) (hnum _) (by decide)

theorem positionLines_eq_nil (lineHeight : Int) (lines : List String)
    (h : ∀ line ∈ lines, stripLine line = "") :
    ∀ i, positionLines lineHeight i lines = [] := by
  induction lines with
  | nil => intro i; rfl
  | cons line rest ih =>
    intro i
    have h1 : stripLine line = "" := h line (by simp)
    have h2 := ih (fun l hl => h l (by simp [hl])) (i + 1)
    simp [positionLines, lineOutput_eq, h1, h2]

theorem positionLines_mem (lineHeight : Int) (lines : List String) (line : String)
    (hl : line ∈ lines) (hs : stripLine line ≠ "") :
    ∀ i, ∃ y, textElement y (stripLine line) ∈ positionLines lineHeight i lines := by
  induction lines with
  | nil => simp at hl
  | cons first rest ih =>
    intro i
    rcases List.mem_cons.mp hl with h | h
    · subst h
      exact ⟨wrapInt (((i : Int) + 1) * lineHeight),
        by simp [positionLines, lineOutput_eq, hs]⟩
    · obtain ⟨y, hy⟩ := ih h (i + 1)
      exact ⟨y, by simp only [positionLines, List.mem_append]; exact Or.inr hy⟩

theorem textElement_data (y : Int) (line : String) :
    ∃ rest, (textElement y line).data = "  ".data ++ "<text x=\"10\"".data ++ rest := by
  refine ⟨" y=\"".data ++ ((formatInt y).data ++ ("\">".data ++ (line.data ++
    ("</text>".data ++ "\n".data)))), ?_⟩
  simp only [textElement, String.data_append, List.append_assoc]
  rfl

theorem Contains_join_of_mem (e sub : String) (L : List String) (front back : List Char)
    (he : e ∈ L) (hd : e.data = front ++ sub.data ++ back) :
    ∃ s t, (String.join L).data = s ++ sub.data ++ t := by
  obtain ⟨L1, L2, hL⟩ := List.append_of_mem he
  refine ⟨(L1.map String.data).flatten ++ front, back ++ (L2.map String.data).flatten, ?_⟩
  rw [hL, String.data_join]
  simp only [List.map_append, List.map_cons, List.flatten_append, List.flatten_cons, hd,
    List.append_assoc]

/-- A line that is not empty after stripping puts `<text x="10"` into the document. -/
theorem WrapSVG_contains_element (content : String) (opts : SVGOptions)
    (h : ∃ line ∈ Split content, stripLine line ≠ "") :
    Contains (WrapSVG content opts) "<text x=\"10\"" := by
  obtain ⟨line, hl, hs⟩ := h
  obtain ⟨y, hy⟩ := positionLines_mem (wrapInt (opts.defaulted.FontSize + 2))
    (Split content) line hl hs 0
  obtain ⟨rest, hrest⟩ := textElement_data y (stripLine line)
  obtain ⟨s, t, hst⟩ := Contains_join_of_mem _ "<text x=\"10\"" _ _ _ hy hrest
  refine ⟨(svgHeader opts.defaulted.Width opts.defaulted.Height).data ++
    (svgStyle opts.defaulted.FontFamily opts.defaulted.FontSize).data ++ s,
    t ++ "</svg>".data, ?_⟩
  rw [WrapSVG_eq]
  simp only [String.data_append, hst, List.append_assoc]

theorem Contains_text_of_element (doc : String) (h : Contains doc "<text x=\"10\"") :
    Contains doc "<text" := by
  obtain ⟨s, t, hst⟩ := h
  have hq : "<text x=\"10\"".data = "<text".data ++ " x=\"10\"".data := by decide
  exact ⟨s, " x=\"10\"".data ++ t, by rw [← hst, hq]; simp only [List.append_assoc]⟩

/-- Without a line that is not empty after stripping, and with a font family free of
`<text`, the document does not contain `<text`. -/
theorem WrapSVG_no_text (content : String) (opts : SVGOptions)
    (hf : ¬ Contains opts.FontFamily "<text")
    (h : ∀ line ∈ Split content, stripLine line = "") :
    ¬ Contains (WrapSVG content opts) "<text" := by
  have hfd : ¬ Contains opts.defaulted.FontFamily "<text" := by
    simp only [SVGOptions.defaulted]
    split_ifs
    · decide
    · exact hf
  rw [WrapSVG_eq, positionLines_eq_nil _ _ h 0]
  exact emptyDocument_no_text _ _ _ _ hfd

/-- C15: for every content and every options whose FontFamily does not contain
`<text`, the document returned by `WrapSVG` contains `<text` if and only if some
line of the content (split on newlines) is not empty after removing a leading
`<text>`, a trailing `</text>` and every `<br/>`; the same lines are those for which
it contains `<text x="10"`; for the empty content, and for a content of bare
`<text>`, `</text>`, empty and `<br/>`-only lines, it contains no `<text`. -/
theorem WrapSVG_contains_text_iff (content : String) (opts : SVGOptions)
    (hf : ¬ Contains opts.FontFamily "<text") :
    (Contains (WrapSVG content opts) "<text" ↔
      ∃ line ∈ Split content, stripLine line ≠ "") ∧
    (Contains (WrapSVG content opts) "<text x=\"10\"" ↔
      ∃ line ∈ Split content, stripLine line ≠ "") ∧
    ¬ Contains (WrapSVG "" opts) "<text" ∧
    ¬ Contains (WrapSVG "<text>\n<br/><br/>\n\n<text><br/></text>\n</text>" opts) "<text" := by
  have hiff : Contains (WrapSVG content opts) "<text" ↔
      ∃ line ∈ Split content, stripLine line ≠ "" := by
    constructor
    · intro hc
      by_contra hne
      refine WrapSVG_no_text content opts hf (fun line hl => ?_) hc
      by_contra hs
      exact hne ⟨line, hl, hs⟩
    · intro hex
      exact Contains_text_of_element _ (WrapSVG_contains_element content opts hex)
  refine ⟨hiff, ⟨fun hc => hiff.mp (Contains_text_of_element _ hc),
    WrapSVG_contains_element content opts⟩, ?_, ?_⟩
  · exact WrapSVG_no_text "" opts hf (by decide)
  · exact WrapSVG_no_text _ opts hf (by decide)

/-- C15, at the content "<text>a b</text>" with a second, empty line, and the
all-zero options: the document contains `<text`. -/
theorem WrapSVG_contains_text_iff_witness :
    ¬ Contains (SVGOptions.mk 0 0 "" 0).FontFamily "<text" ∧
    (Contains (WrapSVG "<text>a b</text>\n" ⟨0, 0, "", 0⟩) "<text" ↔
      ∃ line ∈ Split "<text>a b</text>\n", stripLine line ≠ "") ∧
    Contains (WrapSVG "<text>a b</text>\n" ⟨0, 0, "", 0⟩) "<text" :=
  ⟨by decide, (WrapSVG_contains_text_iff "<text>a b</text>\n" ⟨0, 0, "", 0⟩ (by decide)).1,
    by decide⟩

/-! ## Counting occurrences -/

theorem isPrefixOf_append_cons_of_not_mem (c : Char) (Y : List Char) :
    ∀ (q X : List Char), c ∉ q → q.isPrefixOf (X ++ c :: Y) = q.isPrefixOf X := by
  intro q
  induction q with
  | nil => intro X _; cases X <;> rfl
  | cons a q ih =>
    intro X h
    simp only [List.mem_cons, not_or] at h
    cases X with
    | nil =>
      have hac : (a == c) = false := by
        rw [beq_eq_false_iff_ne]; exact fun e => h.1 e.symm
      simp [List.isPrefixOf, hac]
    | cons x X =>
      show ((a == x) && q.isPrefixOf (X ++ c :: Y)) = ((a == x) && q.isPrefixOf X)
      rw [ih X h.2]

/-- Go `strings.Count` counts at most the positions at which the text starts. -/
theorem countScan_le_occurrences (sub : List Char) :
    ∀ (l : List Char) (skip : Nat), countScan sub l skip ≤ occurrences sub l := by
  intro l
  induction l with
  | nil => intro skip; simp [countScan, occurrences]
  | cons c rest ih =>
    intro skip
    cases skip with
    | succ k =>
      simp only [countScan, occurrences]
      have := ih k
      omega
    | zero =>
      simp only [countScan, occurrences]
      split_ifs
      · have := ih (sub.length - 1)
        omega
      · have := ih 0
        omega

/-- No occurrence starts in a text without the first character of the pattern. -/
theorem occurrences_append_of_not_mem (a : Char) (q Y : List Char) :
    ∀ X : List Char, a ∉ X → occurrences (a :: q) (X ++ Y) = occurrences (a :: q) Y := by
  intro X
  induction X with
  | nil => intro _; rfl
  | cons x X ih =>
    intro h
    simp only [List.mem_cons, not_or] at h
    have hax : (a == x) = false := by
      rw [beq_eq_false_iff_ne]; exact h.1
    simp [occurrences, List.isPrefixOf, hax, ih h.2]

/-- No occurrence starts at a character followed by one that is not the second
character of the pattern. -/
theorem occurrences_cons_cons_of_ne (a b : Char) (q : List Char) (x y : Char) (Y : List Char)
    (h : y ≠ b) :
    occurrences (a :: b :: q) (x :: y :: Y) = occurrences (a :: b :: q) (y :: Y) := by
  have hby : (b == y) = false := by
    rw [beq_eq_false_iff_ne]; exact fun e => h e.symm
  have hp : (a :: b :: q).isPrefixOf (x :: y :: Y) = false := by
    simp [List.isPrefixOf, hby]
  rw [occurrences, hp]
  simp

/-- An occurrence does not reach across a character that is not in the tail of the
pattern. -/
theorem occurrences_append_cons (a c : Char) (q Y : List Char) (hc : c ∉ q) :
    ∀ X : List Char, occurrences (a :: q) (X ++ c :: Y)
      = occurrences (a :: q) X + occurrences (a :: q) (c :: Y) := by
  intro X
  induction X with
  | nil => simp [occurrences]
  | cons x X ih =>
    have hp : (a :: q).isPrefixOf (x :: (X ++ c :: Y)) = (a :: q).isPrefixOf (x :: X) := by
      show ((a == x) && q.isPrefixOf (X ++ c :: Y)) = ((a == x) && q.isPrefixOf X)
      rw [isPrefixOf_append_cons_of_not_mem c Y q X hc]
    show (if (a :: q).isPrefixOf (x :: (X ++ c :: Y)) then 1 else 0)
        + occurrences (a :: q) (X ++ c :: Y)
      = ((if (a :: q).isPrefixOf (x :: X) then 1 else 0) + occurrences (a :: q) X)
        + occurrences (a :: q) (c :: Y)
    rw [hp, ih]
    omega

theorem isPrefixOf_true_data (sub : List Char) :
    ∀ l : List Char, sub.isPrefixOf l = true → ∃ t, l = sub ++ t := by
  induction sub with
  | nil => intro l _; exact ⟨l, rfl⟩
  | cons a q ih =>
    intro l h
    cases l with
    | nil => simp [List.isPrefixOf] at h
    | cons x l =>
      simp only [List.isPrefixOf, Bool.and_eq_true, beq_iff_eq] at h
      obtain ⟨t, ht⟩ := ih l h.2
      exact ⟨t, by rw [h.1, ht]; rfl⟩

theorem occurrences_eq_zero_of_not_infix (sub : List Char) :
    ∀ l : List Char, ¬ sub <:+: l → occurrences sub l = 0 := by
  intro l
  induction l with
  | nil => intro _; rfl
  | cons c rest ih =>
    intro h
    have hrest : ¬ sub <:+: rest := fun ⟨s, t, e⟩ => h ⟨c :: s, t, by simp [← e]⟩
    have hp : sub.isPrefixOf (c :: rest) = false := by
      by_contra hne
      have ht : sub.isPrefixOf (c :: rest) = true := by simpa using hne
      obtain ⟨t, e⟩ := isPrefixOf_true_data sub _ ht
      exact h ⟨[], t, by simp [e]⟩
    simp [occurrences, hp, ih hrest]

theorem isPrefixOf_append_self (sub Y : List Char) : sub.isPrefixOf (sub ++ Y) = true := by
  induction sub with
  | nil => simp [List.isPrefixOf]
  | cons a q ih => simp [List.isPrefixOf, ih]

theorem occurrences_self_append (a : Char) (q V : List Char) :
    occurrences (a :: q) ((a :: q) ++ V) = 1 + occurrences (a :: q) (q ++ V) := by
  show (if (a :: q).isPrefixOf ((a :: q) ++ V) then 1 else 0) + occurrences (a :: q) (q ++ V)
    = 1 + occurrences (a :: q) (q ++ V)
  rw [isPrefixOf_append_self]
  simp

theorem textElement_data_cut (y : Int) (line : String) (Z : List Char) :
    (textElement y line).data ++ Z
      = "  ".data ++ (('<' :: "text x=\"10\"".data) ++
          ((" y=\"".data ++ ((formatInt y).data ++ "\">".data)) ++
            (line.data ++ '<' :: '/' :: ("text>\n".data ++ Z)))) := by
  simp only [textElement, String.data_append, List.append_assoc]
  rfl

theorem textMarker_eq : textMarker = '<' :: 't' :: "ext x=\"10\"".data := by
  decide

/-- One text element whose line does not contain `<text x="10"` holds that text once. -/
theorem occurrences_textElement (y : Int) (line : String) (Z : List Char)
    (hl : ¬ textMarker <:+: line.data) :
    occurrences textMarker ((textElement y line).data ++ Z)
      = 1 + occurrences textMarker Z := by
  have hq : ('t' :: "ext x=\"10\"".data) = "text x=\"10\"".data := by decide
  have hline : occurrences textMarker line.data = 0 :=
    occurrences_eq_zero_of_not_infix _ _ hl
  have hmid : '<' ∉ "text x=\"10\"".data ++
      (" y=\"".data ++ ((formatInt y).data ++ "\">".data)) := by
    simp only [List.mem_append, not_or]
    exact ⟨by decide, by decide, formatInt_no_lt y, by decide⟩
  have htail : '<' ∉ '/' :: "text>\n".data := by decide
  rw [textMarker_eq] at hline ⊢
  rw [textElement_data_cut]
  rw [occurrences_append_of_not_mem _ _ _ "  ".data (by decide)]
  rw [← hq, occurrences_self_append, hq, ← List.append_assoc,
    occurrences_append_of_not_mem _ _ _ _ hmid]
  rw [occurrences_append_cons '<' '<' _ _ (by decide), hline,
    occurrences_cons_cons_of_ne _ _ _ _ _ _ (by decide)]
  rw [← List.cons_append, occurrences_append_of_not_mem _ _ _ _ htail, Nat.zero_add]

theorem positionedElements_cons (lineHeight : Int) (i : Nat) (line : String)
    (rest : List String) :
    positionedElements lineHeight i (line :: rest)
      = if stripLine line ≠ "" then
          textElement (wrapInt (((i : Int) + 1) * lineHeight)) (stripLine line) ::
            positionedElements lineHeight (i + 1) rest
        else positionedElements lineHeight (i + 1) rest := by
  unfold positionedElements
  by_cases hs : stripLine line = ""
  · simp [List.enumFrom_cons, List.filter_cons, hs]
  · simp [List.enumFrom_cons, List.filter_cons, hs]

/-- The loop of `WrapSVG` writes the elements in `int` arithmetic, for every input. -/
theorem positionLines_eq_positionedElements (lineHeight : Int) (lines : List String) :
    ∀ i, positionLines lineHeight i lines = positionedElements lineHeight i lines := by
  induction lines with
  | nil => intro i; rfl
  | cons line rest ih =>
    intro i
    rw [positionedElements_cons, positionLines, lineOutput_eq, ih (i + 1)]
    by_cases hs : stripLine line = ""
    · simp [hs]
    · simp [hs]

theorem positionedElements_length (lineHeight : Int) (lines : List String) :
    ∀ i, (positionedElements lineHeight i lines).length
      = (lines.filter fun l => stripLine l ≠ "").length := by
  induction lines with
  | nil => intro i; rfl
  | cons line rest ih =>
    intro i
    rw [positionedElements_cons]
    by_cases hs : stripLine line = ""
    · simp [hs, ih (i + 1)]
    · simp [hs, ih (i + 1)]

theorem occurrences_positionedElements (lineHeight : Int) (Z : List Char)
    (lines : List String)
    (hL : ∀ line ∈ lines, ¬ textMarker <:+: (stripLine line).data) :
    ∀ i, occurrences textMarker
        (((positionedElements lineHeight i lines).map String.data).flatten ++ Z)
      = (positionedElements lineHeight i lines).length
        + occurrences textMarker Z := by
  induction lines with
  | nil => intro i; simp [positionedElements]
  | cons line rest ih =>
    intro i
    have hrest := ih (fun l hl => hL l (by simp [hl])) (i + 1)
    rw [positionedElements_cons]
    by_cases hs : stripLine line = ""
    · simp only [hs, ne_eq, not_true_eq_false, if_false]
      exact hrest
    · simp only [hs, ne_eq, not_false_eq_true, if_true, List.map_cons, List.flatten_cons,
        List.length_cons, List.append_assoc]
      rw [occurrences_textElement _ _ _ (hL line (by simp)), hrest]
      omega

theorem lt_not_mem_append {A B : List Char} (hA : '<' ∉ A) (hB : '<' ∉ B) :
    '<' ∉ A ++ B := by
  simp [hA, hB]

theorem lt_not_mem_cons {c : Char} {A : List Char} (hc : '<' ≠ c) (hA : '<' ∉ A) :
    '<' ∉ c :: A := by
  simp [hc, hA]

theorem headerStyle_data_cut (width height fontSize : Int) (fontFamily : String)
    (Z : List Char) :
    (svgHeader width height ++ svgStyle fontFamily fontSize).data ++ Z
      = '<' :: 's' :: (("vg xmlns=\"http://www.w3.org/2000/svg\" width=\"".data ++
          ((formatInt width).data ++ ("\" height=\"".data ++ ((formatInt height).data ++
          ("\" viewBox=\"0 0 ".data ++ ((formatInt width).data ++ (" ".data ++
          ((formatInt height).data ++ "\">\n  ".data)))))))) ++
        ('<' :: 's' :: ("tyle>text \x7b font-family: ".data ++
          (fontFamily.data ++ ';' ::
            ((" font-size: ".data ++
                ((formatInt fontSize).data ++ "px; white-space: pre; \x7d".data)) ++
              ('<' :: '/' :: ("style>\n".data ++ Z))))))) := by
  simp only [svgHeader, svgStyle, String.data_append, List.append_assoc]
  rfl

/-- The header and the style hold no `<text x="10"` when the font family holds none. -/
theorem occurrences_headerStyle (width height fontSize : Int) (fontFamily : String)
    (Z : List Char) (hF : ¬ textMarker <:+: fontFamily.data) :
    occurrences textMarker ((svgHeader width height ++ svgStyle fontFamily fontSize).data ++ Z)
      = occurrences textMarker Z := by
  have hfam : occurrences textMarker fontFamily.data = 0 :=
    occurrences_eq_zero_of_not_infix _ _ hF
  have h1 : '<' ∉ 's' :: ("vg xmlns=\"http://www.w3.org/2000/svg\" width=\"".data ++
      ((formatInt width).data ++ ("\" height=\"".data ++ ((formatInt height).data ++
      ("\" viewBox=\"0 0 ".data ++ ((formatInt width).data ++ (" ".data ++
      ((formatInt height).data ++ "\">\n  ".data)))))))) :=
    lt_not_mem_cons (by decide) (lt_not_mem_append (by decide)
      (lt_not_mem_append (formatInt_no_lt _) (lt_not_mem_append (by decide)
      (lt_not_mem_append (formatInt_no_lt _) (lt_not_mem_append (by decide)
      (lt_not_mem_append (formatInt_no_lt _) (lt_not_mem_append (by decide)
      (lt_not_mem_append (formatInt_no_lt _) (by decide)))))))))
  have h2 : '<' ∉ 's' :: "tyle>text \x7b font-family: ".data := by decide
  have h3 : '<' ∉ ';' :: (" font-size: ".data ++
      ((formatInt fontSize).data ++ "px; white-space: pre; \x7d".data)) :=
    lt_not_mem_cons (by decide) (lt_not_mem_append (by decide)
      (lt_not_mem_append (formatInt_no_lt _) (by decide)))
  have h4 : '<' ∉ '/' :: "style>\n".data := by decide
  rw [textMarker_eq] at hfam ⊢
  rw [headerStyle_data_cut]
  rw [occurrences_cons_cons_of_ne _ _ _ _ _ _ (by decide), ← List.cons_append,
    occurrences_append_of_not_mem _ _ _ _ h1]
  rw [occurrences_cons_cons_of_ne _ _ _ _ _ _ (by decide), ← List.cons_append,
    occurrences_append_of_not_mem _ _ _ _ h2]
  rw [occurrences_append_cons '<' ';' _ _ (by decide), hfam, Nat.zero_add,
    ← List.cons_append, occurrences_append_of_not_mem _ _ _ _ h3]
  rw [occurrences_cons_cons_of_ne _ _ _ _ _ _ (by decide), ← List.cons_append,
    occurrences_append_of_not_mem _ _ _ _ h4]

/-- Under the two conditions on the font family and the stripped lines, the document
holds `<text x="10"` once per element written. -/
theorem occurrences_WrapSVG (content : String) (opts : SVGOptions)
    (hF : ¬ textMarker <:+: opts.defaulted.FontFamily.data)
    (hL : ∀ line ∈ Split content, ¬ textMarker <:+: (stripLine line).data) :
    occurrences textMarker (WrapSVG content opts).data
      = (positionedElements (wrapInt (opts.defaulted.FontSize + 2)) 0 (Split content)).length := by
  have hend : occurrences textMarker "</svg>".data = 0 := by decide
  have hd : (WrapSVG content opts).data
      = (svgHeader opts.defaulted.Width opts.defaulted.Height ++
            svgStyle opts.defaulted.FontFamily opts.defaulted.FontSize).data ++
          (((positionedElements (wrapInt (opts.defaulted.FontSize + 2)) 0
              (Split content)).map String.data).flatten ++ "</svg>".data) := by
    rw [WrapSVG_eq, positionLines_eq_positionedElements, String.data_append,
      String.data_append, String.data_join, List.append_assoc]
  rw [hd, occurrences_headerStyle _ _ _ _ _ hF,
    occurrences_positionedElements _ _ _ hL 0, hend, Nat.add_zero]

/-- The bound of `strings.Count` on the document, from the count of positions. -/
theorem Count_WrapSVG_le (content : String) (opts : SVGOptions)
    (hF : ¬ Contains opts.FontFamily "<text x=\"10\"")
    (hL : ∀ line ∈ Split content, ¬ Contains (stripLine line) "<text x=\"10\"") :
    Count (WrapSVG content opts) "<text x=\"10\""
      ≤ (positionedElements (wrapInt (opts.defaulted.FontSize + 2)) 0 (Split content)).length := by
  have hFd : ¬ textMarker <:+: opts.defaulted.FontFamily.data := by
    simp only [SVGOptions.defaulted]
    split_ifs
    · decide
    · exact hF
  have hne : ¬ ("<text x=\"10\"" : String).data = [] := by decide
  rw [← occurrences_WrapSVG content opts hFd hL]
  unfold Count
  rw [if_neg hne]
  exact countScan_le_occurrences _ _ 0

/-! ## Line positions in the document -/

/-- C17 as stated fails, in two ways. The position is computed in `int` arithmetic,
not exactly: for the content "x" and FontSize 9223372036854775807 (the largest
`int`), the single element has y="-9223372036854775807", while
`(0 + 1) * (FontSize + 2)` is 9223372036854775809, so the document is not the one
with exactly computed positions. And the document can hold `<text x="10"` more often
than the content has lines: the one-line content `<text x="10" y="1">a</text>` gives
a document in which `strings.Count` finds it twice. -/
theorem WrapSVG_position_overflow :
    inIntRange 9223372036854775807 ∧
    WrapSVG "x" ⟨0, 0, "", 9223372036854775807⟩
      = svgHeader 800 200 ++ svgStyle "monospace" 9223372036854775807 ++
          "  <text x=\"10\" y=\"-9223372036854775807\">x</text>\n" ++ "</svg>" ∧
    expectedElements (9223372036854775807 + 2) 0 (Split "x")
      = ["  <text x=\"10\" y=\"9223372036854775809\">x</text>\n"] ∧
    WrapSVG "x" ⟨0, 0, "", 9223372036854775807⟩
      ≠ svgHeader 800 200 ++ svgStyle "monospace" 9223372036854775807 ++
          String.join (expectedElements (9223372036854775807 + 2) 0 (Split "x")) ++
          "</svg>" ∧
    (Split "<text x=\"10\" y=\"1\">a</text>").length = 1 ∧
    WrapSVG "<text x=\"10\" y=\"1\">a</text>" ⟨0, 0, "", 0⟩
      = svgHeader 800 200 ++ svgStyle "monospace" 14 ++
          "  <text x=\"10\" y=\"16\"><text x=\"10\" y=\"1\">a</text>\n" ++ "</svg>" ∧
    Count (WrapSVG "<text x=\"10\" y=\"1\">a</text>" ⟨0, 0, "", 0⟩) "<text x=\"10\"" = 2 := by
  refine ⟨by decide, by decide, by decide, by decide, by decide, by decide, by decide⟩

/-- C17, amended: `WrapSVG` positions lines by their index in the content, for every
content and every options. The document is the header, the style, then, for the
lines 0..n-1 of the content split on newlines and in increasing order of the index,
one element `<text x="10" y="Y">stripped line</text>` for every line i that is not
empty after stripping (skipped lines consume an index), then `</svg>`; `Y` is
`(i + 1) * (FontSize + 2)` (FontSize after defaulting) in `int` arithmetic. The
number of elements written is the number of lines that survive stripping, at most
the number of lines. When `FontSize + 2` and its product with the number of lines
fit in an `int`, every `Y` is the exact product. When neither FontFamily nor a
stripped line contains `<text x="10"`, `strings.Count` finds `<text x="10"` in the
document at most once per line of the content. With the default FontSize 14 the
first line of "a", "", "c" gets y="16" and the third gets y="48". -/
theorem WrapSVG_positions (content : String) (opts : SVGOptions) :
    WrapSVG content opts
      = svgHeader opts.defaulted.Width opts.defaulted.Height ++
          svgStyle opts.defaulted.FontFamily opts.defaulted.FontSize ++
          String.join
            (positionedElements (wrapInt (opts.defaulted.FontSize + 2)) 0 (Split content)) ++
          "</svg>" ∧
    (positionedElements (wrapInt (opts.defaulted.FontSize + 2)) 0 (Split content)).length
      = ((Split content).filter fun line => stripLine line ≠ "").length ∧
    (positionedElements (wrapInt (opts.defaulted.FontSize + 2)) 0 (Split content)).length
      ≤ (Split content).length ∧
    (inIntRange (opts.defaulted.FontSize + 2) ∧
        inIntRange (((Split content).length : Int) * (opts.defaulted.FontSize + 2)) →
      positionedElements (wrapInt (opts.defaulted.FontSize + 2)) 0 (Split content)
        = expectedElements (opts.defaulted.FontSize + 2) 0 (Split content)) ∧
    (¬ Contains opts.FontFamily "<text x=\"10\"" ∧
        (∀ line ∈ Split content, ¬ Contains (stripLine line) "<text x=\"10\"") →
      Count (WrapSVG content opts) "<text x=\"10\"" ≤ (Split content).length) ∧
    expectedElements (14 + 2) 0 (Split "a\n\nc")
      = ["  <text x=\"10\" y=\"16\">a</text>\n", "  <text x=\"10\" y=\"48\">c</text>\n"] := by
  have hlen : (positionedElements (wrapInt (opts.defaulted.FontSize + 2)) 0
      (Split content)).length ≤ (Split content).length := by
    rw [← positionLines_eq_positionedElements]
    exact positionLines_length_le _ _ 0
  refine ⟨?_, positionedElements_length _ _ 0, hlen, ?_, ?_, by decide⟩
  · rw [WrapSVG_eq, positionLines_eq_positionedElements]
  · rintro ⟨h1, h2⟩
    rw [← positionLines_eq_positionedElements, wrapInt_of_inIntRange _ h1]
    apply positionLines_eq_expectedElements
    intro k _ hk
    exact wrapInt_of_inIntRange _
      (inIntRange_mul_of_le (Split content).length k _ h2 (by omega))
  · rintro ⟨hF, hL⟩
    exact le_trans (Count_WrapSVG_le content opts hF hL) hlen

/-- C17, amended, at the content "a", "", "c" with the all-zero options: the
elements are those of the first and third line, at y="16" and y="48", and
`<text x="10"` is found twice in the document of three lines. -/
theorem WrapSVG_positions_witness :
    WrapSVG "a\n\nc" ⟨0, 0, "", 0⟩
      = "<svg xmlns=\"http://www.w3.org/2000/svg\" width=\"800\" height=\"200\" viewBox=\"0 0 800 200\">\n  <style>text \x7b font-family: monospace; font-size: 14px; white-space: pre; \x7d</style>\n  <text x=\"10\" y=\"16\">a</text>\n  <text x=\"10\" y=\"48\">c</text>\n</svg>" ∧
    positionedElements (wrapInt ((SVGOptions.mk 0 0 "" 0).defaulted.FontSize + 2)) 0
        (Split "a\n\nc")
      = expectedElements ((SVGOptions.mk 0 0 "" 0).defaulted.FontSize + 2) 0
          (Split "a\n\nc") ∧
    Count (WrapSVG "a\n\nc" ⟨0, 0, "", 0⟩) "<text x=\"10\"" ≤ (Split "a\n\nc").length ∧
    Count (WrapSVG "a\n\nc" ⟨0, 0, "", 0⟩) "<text x=\"10\"" = 2 ∧
    (Split "a\n\nc").length = 3 :=
  ⟨by decide,
    (WrapSVG_positions "a\n\nc" ⟨0, 0, "", 0⟩).2.2.2.1 (by decide),
    (WrapSVG_positions "a\n\nc" ⟨0, 0, "", 0⟩).2.2.2.2.1 (by decide),
    by decide, by decide⟩

end Figlet4go
